import Mathlib

/-!
Verification of the CSV retrieval-augmented chatbot pipeline (`src/agent.py`).

The development embeds the data transformations of `agent.py` as executable
Lean definitions: the row flattener `load_csv_documents`, the chunk splitter
configuration used by `split_documents`, the vector-store wrapper (build,
save, load, search), the session-initialization decision of `main`, the
bounded agent-executor loop, and the per-query handling of `main` (error
catching and the graph-request override).

Parts delegated to third-party libraries (pandas CSV parsing, the recursive
character splitter, FAISS nearest-neighbour search and serialization, the
agent executor loop) are not in the repository's sources; those are modelled
from the specification's contracts, and each such definition is marked with
a doc comment starting `Modelled from the spec:`.
-/

/-- A document as produced by the row flattener of `agent.py`:
`page_content` plus the metadata fields `source` and `row_index`. -/
structure Document where
  content : String
  source : String
  rowIndex : Nat
deriving Repr, DecidableEq

/-- A parsed CSV table: the ordered column names and the rows, each row the
(stringified) values aligned with the columns, as pandas exposes them via
`row.items()`. -/
structure CsvTable where
  columns : List String
  rows : List (List String)
deriving Repr, DecidableEq

/-- One input file of `load_csv_documents`: its path together with the result
of `pd.read_csv`, which either yields a table or raises (modelled `none`). -/
structure CsvFile where
  path : String
  parsed : Option CsvTable
deriving Repr, DecidableEq

/-- The flattened content of one row: `", ".join([f"{col}: {val}" ...])`
over the column/value pairs in column order (`agent.py` line 37). -/
def rowContent (cols vals : List String) : String :=
  String.intercalate ", " ((List.zip cols vals).map (fun p => p.1 ++ ": " ++ p.2))

/-- The documents contributed by the rows of one successfully parsed file:
one `Document` per row, with the file path as `source` and the zero-based
row position as `row_index` (`agent.py` lines 36-42). The index accumulator
mirrors `df.iterrows()` enumeration. -/
def docsOfRows (path : String) (cols : List String) (i : Nat) :
    List (List String) → List Document
  | [] => []
  | r :: rs => ⟨rowContent cols r, path, i⟩ :: docsOfRows path cols (i + 1) rs

/-- `load_csv_documents` together with the error messages it reports:
each file is attempted; a file whose parse raises is reported via `st.error`
and skipped (`continue`), a parsed file contributes one document per row
(`agent.py` lines 31-46). -/
def load_csv_documents_with_errors : List CsvFile → List Document × List String
  | [] => ([], [])
  | f :: fs =>
    let rest := load_csv_documents_with_errors fs
    match f.parsed with
    | some t => (docsOfRows f.path t.columns 0 t.rows ++ rest.1, rest.2)
    | none => (rest.1, ("Error loading " ++ f.path) :: rest.2)

/-- The document list returned by `load_csv_documents` (`agent.py` line 46). -/
def load_csv_documents (files : List CsvFile) : List Document :=
  (load_csv_documents_with_errors files).1

/-- The error messages shown while loading (one per failing file). -/
def loadErrors (files : List CsvFile) : List String :=
  (load_csv_documents_with_errors files).2

/-- Modelled from the spec: the character-window splitter behind
`RecursiveCharacterTextSplitter` (not in the repository's sources). A text
is cut into consecutive windows of at most `m` characters whose starts
advance by `m - o` characters, so consecutive chunks from the same document
share `o` characters of trailing/leading context; an invalid configuration
(`o ≥ m`) or a text already within the bound yields the text unchanged.
The `fuel` argument (instantiated with the text's length) only drives the
structural recursion. -/
def splitCharsFuel (m o : Nat) : Nat → List Char → List (List Char)
  | 0, s => [s]
  | fuel + 1, s =>
    if s.length ≤ m ∨ m ≤ o then [s]
    else s.take m :: splitCharsFuel m o fuel (s.drop (m - o))

/-- The chunks of one text under a `(max_size, overlap)` configuration. -/
def splitChars (m o : Nat) (s : List Char) : List (List Char) :=
  splitCharsFuel m o s.length s

/-- `split_documents` (`agent.py` lines 48-50): every document's content is
split with `chunk_size=1000, chunk_overlap=200`; each chunk keeps its
parent's metadata. -/
def split_documents (docs : List Document) : List Document :=
  docs.flatMap (fun d =>
    (splitChars 1000 200 d.content.toList).map
      (fun c => Document.mk (String.mk c) d.source d.rowIndex))

/-- A document whose content is long enough (1001 characters) to be split. -/
def docLong : Document :=
  Document.mk (String.mk (List.replicate 1001 'a')) "data.csv" 0

/-- Modelled from the spec: the vector distance used for nearest-neighbour
ranking (smaller distance = more relevant); squared Euclidean distance over
integer-component embedding vectors. -/
def dist (u v : List Int) : Int :=
  ((List.zip u v).map (fun p => (p.1 - p.2) * (p.1 - p.2))).sum

/-- The vector store: one entry per chunk, each a document with its
embedding vector. -/
structure VectorStore where
  entries : List (Document × List Int)
deriving Repr, DecidableEq

/-- Modelled from the spec: `FAISS.from_documents` — one index entry per
chunk, the embedding computed by the delegated embedding service `e`. -/
def faissFromDocuments (e : String → List Int) (docs : List Document) : VectorStore :=
  ⟨docs.map (fun d => (d, e d.content))⟩

/-- Comparison of two index entries by distance to a query embedding. -/
def byDist (q : List Int) (a b : Document × List Int) : Prop :=
  dist q a.2 ≤ dist q b.2

instance (q : List Int) : DecidableRel (byDist q) := fun a b =>
  inferInstanceAs (Decidable (dist q a.2 ≤ dist q b.2))

instance (q : List Int) : IsTotal (Document × List Int) (byDist q) :=
  ⟨fun a b => le_total (dist q a.2) (dist q b.2)⟩

instance (q : List Int) : IsTrans (Document × List Int) (byDist q) :=
  ⟨fun _ _ _ => le_trans⟩

/-- Modelled from the spec: `search(query, k)` — embed the query with the
same embedding service and return the `k` nearest entries ranked ascending
by distance. -/
def search (e : String → List Int) (vs : VectorStore) (q : String) (k : Nat) :
    List (Document × List Int) :=
  (List.insertionSort (byDist (e q)) vs.entries).take k

/-- The `k` fixed by the retriever tool (`agent.py` line 63). -/
def retrieverK : Nat := 15

/-- A deterministic stand-in for the delegated embedding service. -/
def eLen (s : String) : List Int := [(s.length : Int)]

/-- A concrete two-entry store. -/
def vsSmall : VectorStore :=
  ⟨[(Document.mk "aaaa" "f.csv" 0, [4]), (Document.mk "aa" "f.csv" 1, [2])]⟩

/-- Modelled from the spec: `save_local` — serialize the index entries to a
flat on-disk representation, one record per entry. -/
def saveLocal (vs : VectorStore) : List (String × String × Nat × List Int) :=
  vs.entries.map (fun p => (p.1.content, p.1.source, p.1.rowIndex, p.2))

/-- Modelled from the spec: `load_local` — rebuild the index from the
serialized on-disk representation. -/
def loadLocal (d : List (String × String × Nat × List Int)) : VectorStore :=
  ⟨d.map (fun t => (Document.mk t.1 t.2.1 t.2.2.1, t.2.2.2))⟩

/-- `create_vector_store` (`agent.py` lines 52-56): build the store from the
documents and persist it to disk; returns the store and the disk artifact. -/
def create_vector_store (e : String → List Int) (docs : List Document) :
    VectorStore × List (String × String × Nat × List Int) :=
  (faissFromDocuments e docs, saveLocal (faissFromDocuments e docs))

/-- `load_existing_vector_store` (`agent.py` lines 58-60). -/
def load_existing_vector_store (disk : List (String × String × Nat × List Int)) :
    VectorStore :=
  loadLocal disk

/-- The ingestion step of `main` (`agent.py` lines 249-257): load all CSV
files; if no documents result, report failure and build nothing; otherwise
split the documents and build (and persist) the vector store. -/
def ingest (e : String → List Int) (files : List CsvFile) : Option VectorStore :=
  if (load_csv_documents files).isEmpty then none
  else some (create_vector_store e (split_documents (load_csv_documents files))).1

/-- A failing file alongside a one-row file that parses. -/
def filesMixed : List CsvFile :=
  [⟨"bad.csv", none⟩, ⟨"good.csv", some ⟨["a"], [["1"]]⟩⟩]

/-- The fixed source file list of `main` (`agent.py` lines 227-231). -/
def csv_paths : List String :=
  ["csv_data/main_metrics.csv",
   "csv_data/var1_correlations.csv",
   "csv_data/var2_data_with_forecast_without_in&outcome.csv"]

/-- `sorted(csv_paths)` as computed at line 246. -/
def currentFileNames : List String :=
  List.insertionSort (fun a b => a ≤ b) csv_paths

/-- The slice of `st.session_state` that drives initialization: the recorded
`file_names`, whether a `vector_store` object is present, and the
`is_initialized` flag (`agent.py` lines 233-242). -/
structure SessionState where
  fileNames : List String
  hasVectorStore : Bool
  isInitialized : Bool
deriving Repr, DecidableEq

/-- The defaults `st.session_state` holds at the start of a new process:
`file_names = []`, no vector store, not initialized (lines 233-242).
Session state does not survive a process restart. -/
def freshSessionState : SessionState :=
  ⟨[], false, false⟩

/-- What the initialization block decides to do. -/
inductive InitAction where
  | rebuild
  | loadExisting
  | skip
deriving Repr, DecidableEq

/-- The initialization decision of `main` (`agent.py` lines 244-263): skip
when already initialized; rebuild when the recorded file names differ from
`sorted(csv_paths)` or no vector store is in session state; load the
persisted index otherwise. -/
def initAction (st : SessionState) : InitAction :=
  if st.isInitialized then InitAction.skip
  else if currentFileNames ≠ st.fileNames ∨ st.hasVectorStore = false then
    InitAction.rebuild
  else InitAction.loadExisting

/-- A step the delegated model can propose in one executor iteration. -/
inductive AgentStep where
  | toolCall (tool : String) (args : String)
  | finalAnswer (text : String)
deriving Repr, DecidableEq

/-- `max_iterations` passed to the `AgentExecutor` (`agent.py` line 220). -/
def maxIterations : Nat := 3

/-- Modelled from the spec: the executor's orchestration loop — a bounded
iteration over "model proposes tool or final answer". Each round the model
(`policy`, a function of the step history) either produces a final answer,
stopping the loop, or calls a tool and continues; the loop also stops when
the iteration budget is exhausted. Returns the final answer, if one was
reached, and the number of iterations performed. -/
def runAgentLoop (policy : List AgentStep → AgentStep) :
    Nat → List AgentStep → Option String × Nat
  | 0, _ => (none, 0)
  | fuel + 1, hist =>
    match policy hist with
    | AgentStep.finalAnswer t => (some t, 1)
    | AgentStep.toolCall tool args =>
      let r := runAgentLoop policy fuel (hist ++ [AgentStep.toolCall tool args])
      (r.1, r.2 + 1)

/-- Python `str.lower` on the character ranges that occur in the queries:
ASCII letters and the Cyrillic block (`А`-`Я` and `Ё`) used by the target
phrases. -/
def lowerChar (c : Char) : Char :=
  if 0x41 ≤ c.toNat ∧ c.toNat ≤ 0x5A then Char.ofNat (c.toNat + 0x20)
  else if 0x410 ≤ c.toNat ∧ c.toNat ≤ 0x42F then Char.ofNat (c.toNat + 0x20)
  else if c.toNat = 0x401 then Char.ofNat 0x451
  else c

/-- Python `str.strip`: remove leading and trailing whitespace. -/
def trimChars (s : List Char) : List Char :=
  ((s.dropWhile Char.isWhitespace).reverse.dropWhile Char.isWhitespace).reverse

/-- `query.strip().lower()` (`agent.py` line 290). -/
def normalizeQuery (q : String) : String :=
  String.mk ((trimChars q.toList).map lowerChar)

/-- The first graph-request phrase (`agent.py` line 287). -/
def graphPhrase1 : String :=
  "построй и проанализируй график прогнозов по основным операционным метрикам (доходы, расходы, arpu, churn/отток) на ближайшие 12 месяцев."

/-- The second graph-request phrase (`agent.py` line 288). -/
def graphPhrase2 : String :=
  "построй график прогнозов по операционным показателям на максимально возможный период и интерпретируй его."

/-- The two graph-request phrases (`agent.py` lines 286-289). -/
def targetQueries : List String :=
  [graphPhrase1, graphPhrase2]

/-- The fixed substitution text shown with the image (`agent.py` line 294). -/
def graphAnswer : String :=
  "Прогнозы по операционным показателям представлены на графике выше."

/-- The fallback apology when the image artifact is absent (line 296). -/
def graphApology : String :=
  "Извините, не получилось сгенерировать график"

/-- Sender of a chat message. -/
inductive Role where
  | user
  | assistant
deriving Repr, DecidableEq

/-- A message of `st.session_state.messages`. -/
structure Msg where
  role : Role
  content : String
deriving Repr, DecidableEq

/-- The observable outcome of one query turn. -/
structure QueryOutcome where
  messages : List Msg
  errorShown : Option String
  showImage : Bool
  agentInvoked : Bool
deriving Repr, DecidableEq

/-- The per-query step of `main` (`agent.py` lines 272-302): the user
message is appended to the history; inside `try`, the agent executor is
invoked on the query, then — for a query whose stripped lowercased form is
one of the two graph-request phrases — the executor's answer is discarded
and replaced by the fixed text (image present, image shown) or the apology
(image absent), and the assistant message is appended; any exception raised
while processing the query is caught and shown via `st.error`, leaving the
history as it stood after the user message. `agentResult` stands for the
outcome of the delegated `agent_executor.invoke` call (`.error` models a
raised exception); `agentInvoked` records that the executor was invoked,
which happens before any override. -/
def handleQuery (messages : List Msg) (query : String) (imageExists : Bool)
    (agentResult : Except String String) : QueryOutcome :=
  let messages1 := messages ++ [Msg.mk Role.user query]
  match agentResult with
  | Except.error e =>
    ⟨messages1, some ("Error processing query: " ++ e), false, true⟩
  | Except.ok answer =>
    if normalizeQuery query ∈ targetQueries then
      if imageExists then
        ⟨messages1 ++ [Msg.mk Role.assistant graphAnswer], none, true, true⟩
      else
        ⟨messages1 ++ [Msg.mk Role.assistant graphApology], none, false, true⟩
    else
      ⟨messages1 ++ [Msg.mk Role.assistant answer], none, false, true⟩

/-- A non-byte-exact variant of the second graph-request phrase: surrounding
whitespace and an upper-case initial letter. -/
def graphPhraseVariant : String :=
  "  Построй график прогнозов по операционным показателям на максимально возможный период и интерпретируй его.  "

theorem docsOfRows_length (path : String) (cols : List String) (i : Nat)
    (rows : List (List String)) : (docsOfRows path cols i rows).length = rows.length := by
  induction rows generalizing i with
  | nil => rfl
  | cons r rs ih => simp [docsOfRows, ih]

theorem docsOfRows_getElem? (path : String) (cols : List String) (i j : Nat)
    (rows : List (List String)) (row : List String) (h : rows[j]? = some row) :
    (docsOfRows path cols i rows)[j]? = some ⟨rowContent cols row, path, i + j⟩ := by
  induction rows generalizing i j with
  | nil => simp at h
  | cons r rs ih =>
    cases j with
    | zero => simp_all [docsOfRows]
    | succ j =>
      simp only [List.getElem?_cons_succ] at h
      have := ih (i + 1) j h
      simpa [docsOfRows, Nat.add_assoc, Nat.add_comm 1 j] using this

theorem load_single_ok (path : String) (cols : List String) (rows : List (List String)) :
    load_csv_documents [⟨path, some ⟨cols, rows⟩⟩] = docsOfRows path cols 0 rows := by
  simp [load_csv_documents, load_csv_documents_with_errors]

/-- C1: for every CSV file that parses successfully, `load_csv_documents`
produces exactly one `Document` per row, whose content is the join of
`"column: value"` pairs in the row's column order separated by `", "`, and
whose metadata carries the source file path and the zero-based row index. -/
theorem C1_row_flattener (path : String) (cols : List String)
    (rows : List (List String)) :
    (load_csv_documents [⟨path, some ⟨cols, rows⟩⟩]).length = rows.length ∧
    ∀ i row, rows[i]? = some row →
      (load_csv_documents [⟨path, some ⟨cols, rows⟩⟩])[i]? =
        some (Document.mk (rowContent cols row) path i) := by
  rw [load_single_ok]
  refine ⟨docsOfRows_length path cols 0 rows, fun i row h => ?_⟩
  simpa using docsOfRows_getElem? path cols 0 i rows row h

/-- C1 witness: a concrete 3-row CSV with columns `a`, `b`, `c` yields exactly
3 documents, the second being `"a: 4, b: 5, c: 6"` at row index 1. -/
theorem C1_row_flattener_witness :
    (load_csv_documents
        [⟨"data.csv", some ⟨["a", "b", "c"],
          [["1", "2", "3"], ["4", "5", "6"], ["7", "8", "9"]]⟩⟩]).length = 3 ∧
    (load_csv_documents
        [⟨"data.csv", some ⟨["a", "b", "c"],
          [["1", "2", "3"], ["4", "5", "6"], ["7", "8", "9"]]⟩⟩])[1]? =
      some (Document.mk "a: 4, b: 5, c: 6" "data.csv" 1) := by
  have h := C1_row_flattener "data.csv" ["a", "b", "c"]
    [["1", "2", "3"], ["4", "5", "6"], ["7", "8", "9"]]
  exact ⟨h.1, by rw [h.2 1 ["4", "5", "6"] rfl]; rfl⟩

theorem splitCharsFuel_length_le (m o : Nat) (ho : o < m) :
    ∀ fuel s, s.length ≤ fuel → ∀ c ∈ splitCharsFuel m o fuel s, c.length ≤ m := by
  intro fuel
  induction fuel with
  | zero =>
    intro s hs c hc
    simp only [splitCharsFuel, List.mem_singleton] at hc
    subst hc
    omega
  | succ fuel ih =>
    intro s hs c hc
    rw [splitCharsFuel] at hc
    by_cases hbase : s.length ≤ m ∨ m ≤ o
    · rw [if_pos hbase] at hc
      simp only [List.mem_singleton] at hc
      subst hc
      omega
    · rw [if_neg hbase] at hc
      push_neg at hbase
      rcases List.mem_cons.mp hc with hc | hc
      · subst hc
        simp [List.length_take]
      · exact ih (s.drop (m - o)) (by simp [List.length_drop]; omega) c hc

theorem splitCharsFuel_head_take (m o : Nat) (ho : o < m) :
    ∀ fuel s c, (splitCharsFuel m o fuel s).head? = some c →
      c.take o = s.take o := by
  intro fuel
  cases fuel with
  | zero =>
    intro s c hc
    simp only [splitCharsFuel, List.head?_cons, Option.some.injEq] at hc
    rw [← hc]
  | succ fuel =>
    intro s c hc
    rw [splitCharsFuel] at hc
    by_cases hbase : s.length ≤ m ∨ m ≤ o
    · rw [if_pos hbase] at hc
      simp only [List.head?_cons, Option.some.injEq] at hc
      rw [← hc]
    · rw [if_neg hbase] at hc
      simp only [List.head?_cons, Option.some.injEq] at hc
      rw [← hc, List.take_take, Nat.min_eq_left (Nat.le_of_lt ho)]

theorem splitCharsFuel_adjacent (m o : Nat) (ho : o < m) :
    ∀ fuel s, s.length ≤ fuel → ∀ i c₁ c₂,
      (splitCharsFuel m o fuel s)[i]? = some c₁ →
      (splitCharsFuel m o fuel s)[i + 1]? = some c₂ →
      c₁.drop (c₁.length - o) = c₂.take o := by
  intro fuel
  induction fuel with
  | zero =>
    intro s hs i c₁ c₂ h₁ h₂
    rcases i with _ | i <;> simp [splitCharsFuel] at h₂
  | succ fuel ih =>
    intro s hs i c₁ c₂ h₁ h₂
    rw [splitCharsFuel] at h₁ h₂
    by_cases hbase : s.length ≤ m ∨ m ≤ o
    · rw [if_pos hbase] at h₂
      rcases i with _ | i <;> simp at h₂
    · rw [if_neg hbase] at h₁ h₂
      push_neg at hbase
      rcases i with _ | i
      · simp only [List.getElem?_cons_zero, Option.some.injEq] at h₁
        simp only [Nat.zero_add, List.getElem?_cons_succ] at h₂
        have hhead : (splitCharsFuel m o fuel (s.drop (m - o))).head? = some c₂ := by
          rcases hsplit : splitCharsFuel m o fuel (s.drop (m - o)) with _ | ⟨x, xs⟩
          · rw [hsplit] at h₂; simp at h₂
          · rw [hsplit] at h₂
            simp only [List.getElem?_cons_zero, Option.some.injEq] at h₂
            rw [List.head?_cons, h₂]
        have htake := splitCharsFuel_head_take m o ho fuel (s.drop (m - o)) c₂ hhead
        subst h₁
        have hlen2 : (List.take m s).length - o = m - o := by
          rw [List.length_take]; omega
        have hmo : m - (m - o) = o := by omega
        rw [hlen2, List.drop_take, hmo, htake]
      · simp only [List.getElem?_cons_succ] at h₁ h₂
        exact ih (s.drop (m - o)) (by simp [List.length_drop]; omega) i c₁ c₂ h₁ h₂

/-- C3: with the configured `chunk_size=1000` and `chunk_overlap=200`, every
chunk produced for a document has length at most 1000, and for every pair of
adjacent chunks of the same parent document the trailing 200 characters of
the earlier chunk equal the leading 200 characters of the later chunk. -/
theorem C3_chunk_bounds (d : Document) :
    (∀ c ∈ splitChars 1000 200 d.content.toList, c.length ≤ 1000) ∧
    (∀ i c₁ c₂, (splitChars 1000 200 d.content.toList)[i]? = some c₁ →
      (splitChars 1000 200 d.content.toList)[i + 1]? = some c₂ →
      c₁.drop (c₁.length - 200) = c₂.take 200) := by
  constructor
  · exact splitCharsFuel_length_le 1000 200 (by omega) _ _ (Nat.le_refl _)
  · exact fun i c₁ c₂ h₁ h₂ =>
      splitCharsFuel_adjacent 1000 200 (by omega) _ _ (Nat.le_refl _) i c₁ c₂ h₁ h₂

set_option maxRecDepth 8192 in
/-- C3 witness: the 1001-character document is split into a 1000-character
chunk followed by a 201-character chunk, and the trailing 200 characters of
the first equal the leading 200 characters of the second. -/
theorem C3_chunk_bounds_witness :
    (splitChars 1000 200 docLong.content.toList)[0]? = some (List.replicate 1000 'a') ∧
    (splitChars 1000 200 docLong.content.toList)[1]? = some (List.replicate 201 'a') ∧
    (List.replicate 1000 'a').drop ((List.replicate 1000 'a').length - 200) =
      (List.replicate 201 'a').take 200 :=
  ⟨by decide, by decide,
    (C3_chunk_bounds docLong).2 0 (List.replicate 1000 'a') (List.replicate 201 'a')
      (by decide) (by decide)⟩

/-- C2: `search` returns at most `k` results (and the retriever tool fixes
`k = 15`), ordered by non-decreasing vector distance to the query embedding,
and when the index holds fewer than `k` entries it returns every entry. -/
theorem C2_search_topk (e : String → List Int) (vs : VectorStore) (q : String)
    (k : Nat) :
    (search e vs q k).length ≤ k ∧
    List.Sorted (byDist (e q)) (search e vs q k) ∧
    (vs.entries.length < k → (search e vs q k).Perm vs.entries) ∧
    retrieverK = 15 := by
  refine ⟨?_, ?_, ?_, rfl⟩
  · rw [search, List.length_take]
    exact min_le_left _ _
  · exact List.Pairwise.sublist (List.take_sublist _ _)
      (List.sorted_insertionSort (byDist (e q)) vs.entries)
  · intro h
    rw [search, List.take_of_length_le]
    · exact List.perm_insertionSort (byDist (e q)) vs.entries
    · rw [List.length_insertionSort]
      omega

/-- C2 witness: a two-entry store holds fewer than 15 entries, so
`search` with `k = 15` returns every entry. -/
theorem C2_search_topk_witness :
    vsSmall.entries.length < 15 ∧
    (search eLen vsSmall "abc" 15).Perm vsSmall.entries :=
  ⟨by decide, (C2_search_topk eLen vsSmall "abc" 15).2.2.1 (by decide)⟩

theorem loadLocal_saveLocal (vs : VectorStore) : loadLocal (saveLocal vs) = vs := by
  cases vs with
  | mk entries =>
    simp only [loadLocal, saveLocal, List.map_map, VectorStore.mk.injEq]
    exact List.map_id'' (fun _ => rfl) entries

/-- C6: round-trip — loading the saved on-disk index back yields an index
whose `search` results are identical to those of the original index, for
every query and every `k`. -/
theorem C6_save_load_roundtrip (e : String → List Int) (docs : List Document)
    (q : String) (k : Nat) :
    search e (load_existing_vector_store (create_vector_store e docs).2) q k =
      search e (create_vector_store e docs).1 q k := by
  rw [create_vector_store, load_existing_vector_store, loadLocal_saveLocal]

theorem loadErrors_mono (f : CsvFile) (files : List CsvFile) (msg : String)
    (h : msg ∈ loadErrors files) : msg ∈ loadErrors (f :: files) := by
  cases hp : f.parsed with
  | some t => simpa [loadErrors, load_csv_documents_with_errors, hp] using h
  | none =>
    simp only [loadErrors, load_csv_documents_with_errors, hp, List.mem_cons]
    exact Or.inr h

/-- C4: a file that fails to parse is reported as a recoverable error for
that file only — its error message is shown and the documents are exactly
those of the remaining (successfully parsed) files — and the overall
ingestion step fails (builds no index) if and only if zero documents result
across all files. -/
theorem C4_per_file_errors (e : String → List Int) (files : List CsvFile) :
    (ingest e files = none ↔ load_csv_documents files = []) ∧
    (∀ f ∈ files, f.parsed = none → ("Error loading " ++ f.path) ∈ loadErrors files) ∧
    load_csv_documents files =
      load_csv_documents (files.filter (fun f => f.parsed.isSome)) := by
  refine ⟨?_, ?_, ?_⟩
  · rw [ingest]
    by_cases h : (load_csv_documents files).isEmpty
    · simp [h, List.isEmpty_iff.mp h]
    · simp only [h, if_false]
      constructor
      · intro hc; exact absurd hc (by simp)
      · intro hc; exact absurd (List.isEmpty_iff.mpr hc) h
  · intro f hf hp
    induction files with
    | nil => simp at hf
    | cons g gs ih =>
      rcases List.mem_cons.mp hf with rfl | hf'
      · simp [loadErrors, load_csv_documents_with_errors, hp]
      · exact loadErrors_mono g gs _ (ih hf')
  · induction files with
    | nil => rfl
    | cons g gs ih =>
      cases hp : g.parsed with
      | some t =>
        simp [load_csv_documents, load_csv_documents_with_errors, hp,
          List.filter_cons, Option.isSome]
        exact ih
      | none =>
        simpa [load_csv_documents, load_csv_documents_with_errors, hp,
          List.filter_cons, Option.isSome] using ih

/-- C4 witness: with one failing and one parsing file, the failing file's
error is reported, loading continues with the other file, and ingestion
does not fail (the document list is non-empty). -/
theorem C4_per_file_errors_witness :
    ("Error loading bad.csv") ∈ loadErrors filesMixed ∧
    ¬ingest eLen filesMixed = none := by
  have h := C4_per_file_errors eLen filesMixed
  refine ⟨h.2.1 ⟨"bad.csv", none⟩ (by decide) rfl, fun hn => ?_⟩
  have := h.1.mp hn
  simp [filesMixed, load_csv_documents, load_csv_documents_with_errors,
    docsOfRows] at this

theorem currentFileNames_ne_nil : currentFileNames ≠ [] := by
  intro h
  have : currentFileNames.length = csv_paths.length :=
    List.length_insertionSort _ _
  rw [h] at this
  simp [csv_paths] at this

/-- C5 counterexample: at the start of a new process — session state fresh,
the source file set unchanged since the previous process persisted the index
— the initialization block rebuilds the index rather than loading it. -/
theorem C5_restart_counterexample :
    initAction freshSessionState = InitAction.rebuild ∧
    InitAction.rebuild ≠ InitAction.loadExisting := by
  refine ⟨?_, by decide⟩
  simp [initAction, freshSessionState]

/-- C5 (amended): within one process session, when the initialization block
runs (not yet initialized), the persisted index is loaded instead of rebuilt
exactly when the recorded file-name set equals `sorted(csv_paths)` and a
vector store is already in session state; a fresh process starts with an
empty recorded file-name set, so after a process restart the index is always
rebuilt even when the source file set is unchanged. -/
theorem C5_index_reuse (st : SessionState) (h : st.isInitialized = false) :
    (initAction st = InitAction.loadExisting ↔
      st.fileNames = currentFileNames ∧ st.hasVectorStore = true) ∧
    initAction freshSessionState = InitAction.rebuild := by
  refine ⟨?_, by simp [initAction, freshSessionState]⟩
  rw [initAction, if_neg (by simp [h])]
  by_cases hb : currentFileNames ≠ st.fileNames ∨ st.hasVectorStore = false
  · rw [if_pos hb]
    constructor
    · intro hc
      exact absurd hc (by decide)
    · rintro ⟨h1, h2⟩
      rcases hb with hb | hb
      · exact absurd h1.symm hb
      · rw [h2] at hb
        exact absurd hb (by decide)
  · rw [if_neg hb]
    push_neg at hb
    constructor
    · intro _
      exact ⟨hb.1.symm, by simpa using hb.2⟩
    · intro _
      rfl

/-- C5 witness: a session state recording exactly `sorted(csv_paths)` with a
vector store present and initialization pending loads the persisted index. -/
theorem C5_index_reuse_witness :
    initAction ⟨currentFileNames, true, false⟩ = InitAction.loadExisting :=
  ((C5_index_reuse ⟨currentFileNames, true, false⟩ rfl).1).mpr ⟨rfl, rfl⟩

theorem runAgentLoop_le (policy : List AgentStep → AgentStep) :
    ∀ fuel hist, (runAgentLoop policy fuel hist).2 ≤ fuel := by
  intro fuel
  induction fuel with
  | zero => intro hist; simp [runAgentLoop]
  | succ fuel ih =>
    intro hist
    rw [runAgentLoop]
    cases policy hist with
    | finalAnswer t => simp
    | toolCall tool args =>
      simpa using Nat.succ_le_succ (ih (hist ++ [AgentStep.toolCall tool args]))

theorem runAgentLoop_none (policy : List AgentStep → AgentStep) :
    ∀ fuel hist, (runAgentLoop policy fuel hist).1 = none →
      (runAgentLoop policy fuel hist).2 = fuel := by
  intro fuel
  induction fuel with
  | zero => intro hist _; rfl
  | succ fuel ih =>
    intro hist hnone
    rw [runAgentLoop] at hnone ⊢
    cases hp : policy hist with
    | finalAnswer t => simp [hp] at hnone
    | toolCall tool args =>
      simp only [hp] at hnone ⊢
      rw [ih (hist ++ [AgentStep.toolCall tool args]) hnone]

/-- C9: the executor's tool-invocation loop performs at most
`max_iterations = 3` iterations of "model proposes tool or final answer",
and it stops either with a final answer or by exhausting the cap. -/
theorem C9_bounded_iterations (policy : List AgentStep → AgentStep)
    (hist : List AgentStep) :
    (runAgentLoop policy maxIterations hist).2 ≤ 3 ∧
    ((∃ t, (runAgentLoop policy maxIterations hist).1 = some t) ∨
      (runAgentLoop policy maxIterations hist).2 = maxIterations) := by
  refine ⟨runAgentLoop_le policy maxIterations hist, ?_⟩
  cases hres : (runAgentLoop policy maxIterations hist).1 with
  | some t => exact Or.inl ⟨t, rfl⟩
  | none => exact Or.inr (runAgentLoop_none policy maxIterations hist hres)

theorem targetQueries_normalized : ∀ p ∈ targetQueries, normalizeQuery p = p := by
  decide

/-- C7: any failure raised while processing a query is caught per query and
surfaced as a user-visible inline error message; the step always returns
normally (the model of the handler is a total function), and the history
accumulated before the failing query is preserved — the prior messages stay
a prefix of the history in every outcome. -/
theorem C7_per_query_errors (msgs : List Msg) (q : String) (img : Bool)
    (res : Except String String) :
    (∀ e, res = Except.error e →
      (handleQuery msgs q img res).errorShown =
          some ("Error processing query: " ++ e) ∧
      (handleQuery msgs q img res).messages = msgs ++ [Msg.mk Role.user q]) ∧
    (∃ rest, (handleQuery msgs q img res).messages = msgs ++ rest) := by
  constructor
  · rintro e rfl
    exact ⟨rfl, rfl⟩
  · cases res with
    | error e => exact ⟨[Msg.mk Role.user q], rfl⟩
    | ok a =>
      by_cases hm : normalizeQuery q ∈ targetQueries
      · cases img
        · exact ⟨[Msg.mk Role.user q, Msg.mk Role.assistant graphApology],
            by simp [handleQuery, hm]⟩
        · exact ⟨[Msg.mk Role.user q, Msg.mk Role.assistant graphAnswer],
            by simp [handleQuery, hm]⟩
      · exact ⟨[Msg.mk Role.user q, Msg.mk Role.assistant a],
          by simp [handleQuery, hm]⟩

/-- C7 witness: a concrete failing query shows the inline error and keeps
the history up to and including the user's message. -/
theorem C7_per_query_errors_witness :
    (handleQuery [] "q" false (Except.error "boom")).errorShown =
      some "Error processing query: boom" ∧
    (handleQuery [] "q" false (Except.error "boom")).messages =
      [Msg.mk Role.user "q"] := by
  have h := (C7_per_query_errors [] "q" false (Except.error "boom")).1 "boom" rfl
  exact ⟨h.1, by simpa using h.2⟩

/-- C8: for a query string exactly matching one of the two graph-request
phrases, if the image artifact exists the recorded answer is the fixed
substitution text and an image display is signalled; if the artifact is
absent the recorded answer is the fallback apology instead. -/
theorem C8_graph_request (q : String) (hq : q ∈ targetQueries) (a : String)
    (msgs : List Msg) (img : Bool) :
    (img = true →
      (handleQuery msgs q img (Except.ok a)).messages =
        msgs ++ [Msg.mk Role.user q, Msg.mk Role.assistant graphAnswer] ∧
      (handleQuery msgs q img (Except.ok a)).showImage = true) ∧
    (img = false →
      (handleQuery msgs q img (Except.ok a)).messages =
        msgs ++ [Msg.mk Role.user q, Msg.mk Role.assistant graphApology] ∧
      (handleQuery msgs q img (Except.ok a)).showImage = false) := by
  have hn : normalizeQuery q ∈ targetQueries := by
    rw [targetQueries_normalized q hq]
    exact hq
  constructor
  · rintro rfl
    simp [handleQuery, hn]
  · rintro rfl
    simp [handleQuery, hn]

/-- C8 witness: the second graph-request phrase, asked verbatim, yields the
substitution text with the image signalled when the artifact exists, and the
apology without an image when it does not. -/
theorem C8_graph_request_witness :
    ((handleQuery [] graphPhrase2 true (Except.ok "ignored")).messages =
        [Msg.mk Role.user graphPhrase2, Msg.mk Role.assistant graphAnswer] ∧
      (handleQuery [] graphPhrase2 true (Except.ok "ignored")).showImage = true) ∧
    ((handleQuery [] graphPhrase2 false (Except.ok "ignored")).messages =
        [Msg.mk Role.user graphPhrase2, Msg.mk Role.assistant graphApology] ∧
      (handleQuery [] graphPhrase2 false (Except.ok "ignored")).showImage = false) := by
  have h := C8_graph_request graphPhrase2 (by decide) "ignored" []
  exact ⟨by simpa using (h true).1 rfl, by simpa using (h false).2 rfl⟩

/-- C10: for a query whose stripped lowercased form is one of the two
graph-request phrases, the recorded outcome is determined solely by whether
the image exists — two runs differing only in the agent's returned text
produce identical outcomes, the agent's answer being discarded — while the
agent executor is still invoked; matching is on the normalized form, hence
case- and surrounding-whitespace-insensitive rather than byte-exact. -/
theorem C10_graph_override_noninterference (q : String)
    (hq : normalizeQuery q ∈ targetQueries) (img : Bool) (a₁ a₂ : String)
    (msgs : List Msg) :
    handleQuery msgs q img (Except.ok a₁) = handleQuery msgs q img (Except.ok a₂) ∧
    (handleQuery msgs q img (Except.ok a₁)).agentInvoked = true := by
  cases img <;> simp [handleQuery, hq]

/-- C10 witness: the whitespace-and-case variant normalizes into the target
set without being byte-equal to it, and two runs with different agent
answers coincide. -/
theorem C10_graph_override_noninterference_witness :
    normalizeQuery graphPhraseVariant ∈ targetQueries ∧
    graphPhraseVariant ∉ targetQueries ∧
    handleQuery [] graphPhraseVariant true (Except.ok "answer one") =
      handleQuery [] graphPhraseVariant true (Except.ok "answer two") ∧
    (handleQuery [] graphPhraseVariant true (Except.ok "answer one")).agentInvoked =
      true := by
  have h := C10_graph_override_noninterference graphPhraseVariant (by decide) true
    "answer one" "answer two" []
  exact ⟨by decide, by decide, h.1, h.2⟩
